import Mathlib

/-!
Verification of the MAKO hook lifecycle and session-state recovery subsystem.

The development shallowly embeds the JavaScript sources:
  - `hooks/lib/telemetry.js` (`logEvent`, `wrapHook`),
  - `hooks/lib/memory-fallback.js` (`MCP_HTTP_PORT`, `isMemoryServiceHealthy`),
  - `hooks/pre-compact-save.js` (`safeRead`/`safeParseJSON`, sprint extraction,
    session-state merge, output envelope),
  - `hooks/subagent-stop-memory.js` (routing, output envelope),
  - `hooks/user-prompt-submit-rufus.js` (sprint extraction, story counts,
    output envelope).

JavaScript values that flow through these hooks are modelled by `JsVal`;
machine numbers that matter here (durations, ports) are integers in the
source's use, so they are modelled by `Int`.  Filesystem reads are modelled
by `Option String` parameters (`none` = file absent / read failed), and the
result of `JSON.parse` by `Option JsVal` (`none` = parse threw).
-/

set_option autoImplicit false

namespace Mako

/-- Model of a JavaScript/JSON value as it flows through the hooks.
Numbers are `Int` because every number the hooks handle (durations, ports,
story counts) is integral. -/
inductive JsVal where
  | null
  | bool (b : Bool)
  | num (n : Int)
  | str (s : String)
  | arr (elems : List JsVal)
  | obj (fields : List (String × JsVal))

/-- JavaScript truthiness for the modelled values: `null`, `false`, `0`
and `""` are falsy; every array and object is truthy. -/
def truthy : JsVal → Bool
  | .null => false
  | .bool b => b
  | .num n => n != 0
  | .str s => s ≠ ""
  | .arr _ => true
  | .obj _ => true

/-- First-match association lookup on an object's field list
(JavaScript property access on a plain object). -/
def propLookup : List (String × JsVal) → String → Option JsVal
  | [], _ => none
  | (k', v) :: fs, k => if k' = k then some v else propLookup fs k

/-- JavaScript property access `v.k`: defined on objects, `undefined`
(here `none`) on every other value the hooks can reach. -/
def getProp : JsVal → String → Option JsVal
  | .obj fs, k => propLookup fs k
  | _, _ => none

/-- JavaScript `x || d` where `x` is a possibly-undefined property read:
the property's value when present and truthy, otherwise the default. -/
def jsOr (v : Option JsVal) (d : JsVal) : JsVal :=
  match v with
  | some x => if truthy x then x else d
  | none => d

/-- Session-state merge of `pre-compact-save.js` (`main`, the
`sessionState` object literal): a fresh `last_compaction`, the freshly
extracted sprint block, and `existingState.<field> || <default>` for the
three carried fields. -/
def mergeSessionState (now : String) (sprintData : JsVal) (existing : JsVal) :
    List (String × JsVal) :=
  [("last_compaction", .str now),
   ("sprint", sprintData),
   ("active_agents", jsOr (getProp existing "active_agents") (.obj [])),
   ("pending_decisions", jsOr (getProp existing "pending_decisions") (.arr [])),
   ("notes", jsOr (getProp existing "notes") (.str ""))]

/-- If the fallback default is truthy (the `{}` and `[]` defaults are),
re-feeding a merged field through the same `x || d` step is the identity. -/
theorem jsOr_idem_truthy (x : Option JsVal) (d : JsVal) (hd : truthy d = true) :
    jsOr (some (jsOr x d)) d = jsOr x d := by
  cases x with
  | none => simp [jsOr, hd]
  | some v =>
    by_cases hv : truthy v = true
    · simp [jsOr, hv]
    · simp [jsOr, hv, hd]

/-- Re-feeding a merged `notes` field through `x || ""` is the identity:
the only falsy string is `""`, which the default reproduces. -/
theorem jsOr_idem_emptyStr (x : Option JsVal) :
    jsOr (some (jsOr x (.str ""))) (.str "") = jsOr x (.str "") := by
  cases x with
  | none => rfl
  | some v =>
    by_cases hv : truthy v = true
    · simp [jsOr, hv]
    · have h1 : jsOr (some v) (.str "") = .str "" := by simp [jsOr, hv]
      rw [h1]
      rfl

/-- C1: writing a new snapshot keeps `active_agents`, `pending_decisions`
and `notes` verbatim from a prior snapshot whose fields have their
schema types, substitutes `{}` / `[]` / `""` exactly when the prior
snapshot lacks the field, fully replaces `sprint` with the freshly
extracted data, stamps `last_compaction` with the new write instant, and
produces no top-level field besides those five. -/
theorem sessionState_merge_frame_preserved (t : String) (sp ex : JsVal)
    (ha : getProp ex "active_agents" = none ∨
      ∃ fs, getProp ex "active_agents" = some (.obj fs))
    (hp : getProp ex "pending_decisions" = none ∨
      ∃ xs, getProp ex "pending_decisions" = some (.arr xs))
    (hn : getProp ex "notes" = none ∨
      ∃ s, getProp ex "notes" = some (.str s)) :
    propLookup (mergeSessionState t sp ex) "last_compaction" = some (.str t) ∧
    propLookup (mergeSessionState t sp ex) "sprint" = some sp ∧
    (mergeSessionState t sp ex).map Prod.fst =
      ["last_compaction", "sprint", "active_agents", "pending_decisions", "notes"] ∧
    (∀ v, getProp ex "active_agents" = some v →
      propLookup (mergeSessionState t sp ex) "active_agents" = some v) ∧
    (getProp ex "active_agents" = none →
      propLookup (mergeSessionState t sp ex) "active_agents" = some (.obj [])) ∧
    (∀ v, getProp ex "pending_decisions" = some v →
      propLookup (mergeSessionState t sp ex) "pending_decisions" = some v) ∧
    (getProp ex "pending_decisions" = none →
      propLookup (mergeSessionState t sp ex) "pending_decisions" = some (.arr [])) ∧
    (∀ v, getProp ex "notes" = some v →
      propLookup (mergeSessionState t sp ex) "notes" = some v) ∧
    (getProp ex "notes" = none →
      propLookup (mergeSessionState t sp ex) "notes" = some (.str "")) := by
  refine ⟨rfl, rfl, rfl, ?_, ?_, ?_, ?_, ?_, ?_⟩
  · intro v hv
    rcases ha with h | ⟨fs, h⟩
    · exact absurd (h ▸ hv) (by simp)
    · rw [h] at hv
      injection hv with hv
      simp [mergeSessionState, propLookup, h, ← hv, jsOr, truthy]
  · intro h
    simp [mergeSessionState, propLookup, h, jsOr]
  · intro v hv
    rcases hp with h | ⟨xs, h⟩
    · exact absurd (h ▸ hv) (by simp)
    · rw [h] at hv
      injection hv with hv
      simp [mergeSessionState, propLookup, h, ← hv, jsOr, truthy]
  · intro h
    simp [mergeSessionState, propLookup, h, jsOr]
  · intro v hv
    rcases hn with h | ⟨s, h⟩
    · exact absurd (h ▸ hv) (by simp)
    · rw [h] at hv
      injection hv with hv
      subst hv
      by_cases hs : s = ""
      · subst hs
        simp [mergeSessionState, propLookup, h, jsOr, truthy]
      · simp [mergeSessionState, propLookup, h, jsOr, truthy, hs]
  · intro h
    simp [mergeSessionState, propLookup, h, jsOr]

/-- Prior snapshot used to witness C1: all three carried fields present
with their schema types. -/
def priorSnapshotW : JsVal :=
  .obj [("last_compaction", .str "2026-01-01T00:00:00.000Z"),
        ("sprint", .obj []),
        ("active_agents", .obj [("tseng", .str "task-123")]),
        ("pending_decisions", .arr [.str "pick db"]),
        ("notes", .str "keep me")]

/-- Witness for C1 at a concrete prior snapshot: the carried fields
survive a merge verbatim and the sprint block is replaced. -/
theorem sessionState_merge_frame_preserved_witness :
    propLookup (mergeSessionState "2026-02-02T00:00:00.000Z" (.str "fresh") priorSnapshotW)
      "active_agents" = some (.obj [("tseng", .str "task-123")]) ∧
    propLookup (mergeSessionState "2026-02-02T00:00:00.000Z" (.str "fresh") priorSnapshotW)
      "notes" = some (.str "keep me") ∧
    propLookup (mergeSessionState "2026-02-02T00:00:00.000Z" (.str "fresh") priorSnapshotW)
      "sprint" = some (.str "fresh") := by
  have h := sessionState_merge_frame_preserved "2026-02-02T00:00:00.000Z" (.str "fresh")
    priorSnapshotW (Or.inr ⟨_, rfl⟩) (Or.inr ⟨_, rfl⟩) (Or.inr ⟨_, rfl⟩)
  exact ⟨h.2.2.2.1 _ rfl, h.2.2.2.2.2.2.2.1 _ rfl, h.2.1⟩

/-- C2: the merge is idempotent over a read-back: merging a second time
against the snapshot produced by a first merge (with the same freshly
extracted sprint data) reproduces the first snapshot except for the
`last_compaction` stamp, which alone takes the new write instant. -/
theorem sessionState_roundtrip_idempotent (t1 t2 : String) (sp ex : JsVal) :
    mergeSessionState t2 sp (.obj (mergeSessionState t1 sp ex)) =
      ("last_compaction", .str t2) :: (mergeSessionState t1 sp ex).drop 1 := by
  show [("last_compaction", JsVal.str t2),
        ("sprint", sp),
        ("active_agents",
          jsOr (getProp (.obj (mergeSessionState t1 sp ex)) "active_agents") (.obj [])),
        ("pending_decisions",
          jsOr (getProp (.obj (mergeSessionState t1 sp ex)) "pending_decisions") (.arr [])),
        ("notes", jsOr (getProp (.obj (mergeSessionState t1 sp ex)) "notes") (.str ""))] = _
  have hA : getProp (.obj (mergeSessionState t1 sp ex)) "active_agents" =
      some (jsOr (getProp ex "active_agents") (.obj [])) := rfl
  have hP : getProp (.obj (mergeSessionState t1 sp ex)) "pending_decisions" =
      some (jsOr (getProp ex "pending_decisions") (.arr [])) := rfl
  have hN : getProp (.obj (mergeSessionState t1 sp ex)) "notes" =
      some (jsOr (getProp ex "notes") (.str "")) := rfl
  rw [hA, hP, hN, jsOr_idem_truthy (getProp ex "active_agents") (.obj []) rfl,
    jsOr_idem_truthy (getProp ex "pending_decisions") (.arr []) rfl,
    jsOr_idem_emptyStr (getProp ex "notes")]
  rfl

/-- JavaScript assignment `target[k] = v` on a plain object: overwrite in
place when the key exists, append otherwise. -/
def setProp : List (String × JsVal) → String → JsVal → List (String × JsVal)
  | [], k, v => [(k, v)]
  | (k', v') :: fs, k, v =>
    if k' = k then (k', v) :: fs else (k', v') :: setProp fs k v

/-- `Object.assign(target, source)`: copy the source's fields into the
target left to right, later assignments overriding earlier ones. -/
def objAssign (t md : List (String × JsVal)) : List (String × JsVal) :=
  md.foldl (fun acc kv => setProp acc kv.1 kv.2) t

/-- Entry built by `logEvent` in `telemetry.js`: the four base fields,
then `Object.assign` with the caller's metadata bag. -/
def logEventEntry (ts event hook : String) (duration : Int)
    (metadata : List (String × JsVal)) : List (String × JsVal) :=
  objAssign
    [("timestamp", .str ts), ("event", .str event),
     ("hook", .str hook), ("duration_ms", .num duration)]
    metadata

theorem propLookup_setProp_self (fs : List (String × JsVal)) (k : String) (v : JsVal) :
    propLookup (setProp fs k v) k = some v := by
  induction fs with
  | nil => simp [setProp, propLookup]
  | cons hd tl ih =>
    obtain ⟨k', v'⟩ := hd
    by_cases h : k' = k
    · simp [setProp, propLookup, h]
    · simp [setProp, propLookup, h, ih]

theorem propLookup_setProp_ne (fs : List (String × JsVal)) (k j : String) (v : JsVal)
    (h : j ≠ k) : propLookup (setProp fs k v) j = propLookup fs j := by
  induction fs with
  | nil =>
    have hkj : k ≠ j := fun hk => h hk.symm
    simp [setProp, propLookup, hkj]
  | cons hd tl ih =>
    obtain ⟨k', v'⟩ := hd
    by_cases hk : k' = k
    · subst hk
      have hne : k' ≠ j := fun hj => h hj.symm
      simp [setProp, propLookup, hne]
    · by_cases hj : k' = j
      · subst hj
        simp [setProp, propLookup, hk]
      · simp [setProp, propLookup, hk, hj, ih]

theorem propLookup_objAssign_notMem (md : List (String × JsVal)) :
    ∀ (t : List (String × JsVal)) (k : String), k ∉ md.map Prod.fst →
      propLookup (objAssign t md) k = propLookup t k := by
  induction md with
  | nil => intro t k _; rfl
  | cons hd tl ih =>
    intro t k h
    rw [List.map_cons, List.mem_cons] at h
    push_neg at h
    calc propLookup (objAssign (setProp t hd.1 hd.2) tl) k
        = propLookup (setProp t hd.1 hd.2) k := ih _ k h.2
      _ = propLookup t k := propLookup_setProp_ne _ _ _ _ h.1

theorem propLookup_objAssign_mem (md : List (String × JsVal)) :
    ∀ (t : List (String × JsVal)) (k : String) (v : JsVal),
      (md.map Prod.fst).Nodup → (k, v) ∈ md →
      propLookup (objAssign t md) k = some v := by
  induction md with
  | nil => intro t k v _ hmem; cases hmem
  | cons hd tl ih =>
    intro t k v hnd hmem
    obtain ⟨k', v'⟩ := hd
    rw [List.map_cons, List.nodup_cons] at hnd
    rcases List.mem_cons.mp hmem with heq | htl
    · have hk1 : k = k' := congrArg Prod.fst heq
      have hv1 : v = v' := congrArg Prod.snd heq
      subst hk1
      subst hv1
      rw [show objAssign t ((k, v) :: tl) = objAssign (setProp t k v) tl from rfl,
        propLookup_objAssign_notMem tl _ k hnd.1]
      exact propLookup_setProp_self _ _ _
    · exact ih _ k v hnd.2 htl

/-- C10: the metadata bag is merged after the base fields and overrides
them — a telemetry call whose metadata carries one of `timestamp`,
`event`, `hook`, `duration_ms` records the metadata's value for that key
in place of the logger's own. -/
theorem metadata_overrides_base_fields (ts ev hk : String) (d : Int)
    (md : List (String × JsVal)) (k : String) (v : JsVal)
    (hnd : (md.map Prod.fst).Nodup) (hmem : (k, v) ∈ md)
    (_hcore : k ∈ ["timestamp", "event", "hook", "duration_ms"]) :
    propLookup (logEventEntry ts ev hk d md) k = some v :=
  propLookup_objAssign_mem md _ k v hnd hmem

/-- Witness for C10: a metadata bag carrying `timestamp` rewrites the
logger's own timestamp in the appended record. -/
theorem metadata_overrides_base_fields_witness :
    propLookup (logEventEntry "2026-01-01T00:00:00.000Z" "hook_end" "h" 5
      [("timestamp", .str "OVERRIDDEN")]) "timestamp" = some (.str "OVERRIDDEN") :=
  metadata_overrides_base_fields "2026-01-01T00:00:00.000Z" "hook_end" "h" 5
    [("timestamp", .str "OVERRIDDEN")] "timestamp" (.str "OVERRIDDEN")
    (by simp) (by simp) (by simp)

/-- Run of a hook body wrapped by `wrapHook` in `telemetry.js`.  The body
either returns a value or throws a message; `t0`/`t1` are the
`Date.now()` readings at start and at completion, `tsStart`/`tsFinish`
the ISO timestamps taken by the two `logEvent` calls.  Returns the
propagated outcome and the appended telemetry entries in order. -/
def wrapHookRun (α : Type) (hookName : String) (tsStart tsFinish : String)
    (t0 t1 : Int) (body : Except String α) :
    Except String α × List (List (String × JsVal)) :=
  match body with
  | .ok v =>
    (.ok v,
      [logEventEntry tsStart "hook_start" hookName 0 [],
       logEventEntry tsFinish "hook_end" hookName (t1 - t0) []])
  | .error e =>
    (.error e,
      [logEventEntry tsStart "hook_start" hookName 0 [],
       logEventEntry tsFinish "hook_error" hookName (t1 - t0) [("error", .str e)]])

/-- Does a telemetry entry carry the given `event` value? -/
def isEvent (e : String) (r : List (String × JsVal)) : Bool :=
  match propLookup r "event" with
  | some (.str s) => s = e
  | _ => false

/-- C8: a wrapped body that throws `x` makes the wrapper emit exactly one
`hook_start` and exactly one `hook_error` entry whose `error` field is
`x`, no `hook_end`, and the original exception propagates unchanged; a
successful body yields `hook_start` then `hook_end` and the body's result
unchanged. -/
theorem wrapHook_error_transparency :
    (∀ (α : Type) (name tsS tsF : String) (t0 t1 : Int) (x : String),
      (wrapHookRun α name tsS tsF t0 t1 (.error x)).1 = .error x ∧
      (wrapHookRun α name tsS tsF t0 t1 (.error x)).2 =
        [logEventEntry tsS "hook_start" name 0 [],
         logEventEntry tsF "hook_error" name (t1 - t0) [("error", .str x)]] ∧
      ((wrapHookRun α name tsS tsF t0 t1 (.error x)).2.countP (isEvent "hook_start")) = 1 ∧
      ((wrapHookRun α name tsS tsF t0 t1 (.error x)).2.countP (isEvent "hook_error")) = 1 ∧
      ((wrapHookRun α name tsS tsF t0 t1 (.error x)).2.countP (isEvent "hook_end")) = 0 ∧
      propLookup (logEventEntry tsF "hook_error" name (t1 - t0) [("error", .str x)])
        "error" = some (.str x)) ∧
    (∀ (α : Type) (name tsS tsF : String) (t0 t1 : Int) (v : α),
      (wrapHookRun α name tsS tsF t0 t1 (.ok v)).1 = .ok v ∧
      (wrapHookRun α name tsS tsF t0 t1 (.ok v)).2 =
        [logEventEntry tsS "hook_start" name 0 [],
         logEventEntry tsF "hook_end" name (t1 - t0) []] ∧
      ((wrapHookRun α name tsS tsF t0 t1 (.ok v)).2.countP (isEvent "hook_start")) = 1 ∧
      ((wrapHookRun α name tsS tsF t0 t1 (.ok v)).2.countP (isEvent "hook_end")) = 1 ∧
      ((wrapHookRun α name tsS tsF t0 t1 (.ok v)).2.countP (isEvent "hook_error")) = 0) :=
  ⟨fun _ _ _ _ _ _ _ => ⟨rfl, rfl, rfl, rfl, rfl, rfl⟩,
   fun _ _ _ _ _ _ _ => ⟨rfl, rfl, rfl, rfl, rfl⟩⟩

/-- C3 fails as stated on the code: `logEvent` performs no validation or
clamping, so a `hook_end` telemetry call supplied with duration `-5`
appends a record whose `duration_ms` is the negative number `-5`. -/
theorem logEvent_negative_duration_recorded :
    propLookup (logEventEntry "2026-01-01T00:00:00.000Z" "hook_end" "precompact" (-5) [])
      "duration_ms" = some (.num (-5)) ∧ (-5 : Int) < 0 :=
  ⟨rfl, by decide⟩

/-- C3 amended: the logger records the supplied `duration_ms` verbatim
(no rejection or clamping, so a negative supplied value is recorded
negative), and every duration the `wrapHook` instrumentation itself
supplies is the elapsed difference of its two clock readings, which is
non-negative whenever the completion reading is at least the start
reading. -/
theorem telemetry_duration_amended :
    (∀ (ts ev hk : String) (d : Int),
      propLookup (logEventEntry ts ev hk d []) "duration_ms" = some (.num d)) ∧
    (∀ (α : Type) (name tsS tsF : String) (t0 t1 : Int) (body : Except String α),
      t0 ≤ t1 → ∀ r ∈ (wrapHookRun α name tsS tsF t0 t1 body).2,
        ∃ d : Int, propLookup r "duration_ms" = some (.num d) ∧ 0 ≤ d) := by
  refine ⟨fun ts ev hk d => rfl, fun α name tsS tsF t0 t1 body h r hr => ?_⟩
  cases body with
  | ok v =>
    rcases List.mem_cons.mp hr with h1 | h1
    · exact ⟨0, h1 ▸ rfl, le_refl 0⟩
    · rcases List.mem_cons.mp h1 with h2 | h2
      · exact ⟨t1 - t0, h2 ▸ rfl, by omega⟩
      · cases h2
  | error e =>
    rcases List.mem_cons.mp hr with h1 | h1
    · exact ⟨0, h1 ▸ rfl, le_refl 0⟩
    · rcases List.mem_cons.mp h1 with h2 | h2
      · exact ⟨t1 - t0, h2 ▸ rfl, by omega⟩
      · cases h2

/-- Witness for the amended C3: a verbatim recording at duration 7, and a
non-negative duration in a concrete failing wrapped run. -/
theorem telemetry_duration_amended_witness :
    propLookup (logEventEntry "t" "hook_end" "h" 7 []) "duration_ms" = some (.num 7) ∧
    (∃ d : Int,
      propLookup (logEventEntry "tf" "hook_error" "h" (5 - 2) [("error", .str "x")])
        "duration_ms" = some (.num d) ∧ 0 ≤ d) :=
  ⟨telemetry_duration_amended.1 "t" "hook_end" "h" 7,
   telemetry_duration_amended.2 String "h" "ts" "tf" 2 5 (.error "x") (by decide) _
     (List.Mem.tail _ (List.Mem.head _))⟩

/-- JavaScript `\s` / `StrWhiteSpaceChar`: the whitespace class used both
by the regex patterns and by `parseInt` / `trim` leading-space stripping. -/
def isJsWs (c : Char) : Bool :=
  c = ' ' || c = '\t' || c = '\n' || c = '\r' || c.val = 11 || c.val = 12 ||
  c.val = 0xa0 || c.val = 0x1680 || (0x2000 ≤ c.val && c.val ≤ 0x200a) ||
  c.val = 0x2028 || c.val = 0x2029 || c.val = 0x202f || c.val = 0x205f ||
  c.val = 0x3000 || c.val = 0xfeff

/-- Maximal run of leading decimal digits, as a number; `none` when there
is no digit (`parseInt` returns `NaN` then). -/
def natOfDigits (cs : List Char) : Option Nat :=
  let ds := cs.takeWhile Char.isDigit
  if ds.isEmpty then none
  else some (ds.foldl (fun acc c => acc * 10 + (c.toNat - '0'.toNat)) 0)

/-- JavaScript `parseInt(s, 10)`: strip leading whitespace, optional
sign, maximal run of decimal digits, ignore the rest; `none` models
`NaN`.  (JS numbers lose precision beyond 2^53; the hooks only ever deal
in ports, so the exact-integer model is faithful on the reachable
range.) -/
def parseIntJS (s : String) : Option Int :=
  match s.toList.dropWhile isJsWs with
  | '-' :: rest => (natOfDigits rest).map (fun n => -(n : Int))
  | '+' :: rest => (natOfDigits rest).map (fun n => (n : Int))
  | cs => (natOfDigits cs).map (fun n => (n : Int))

/-- `MCP_HTTP_PORT` of `memory-fallback.js`:
`parseInt(process.env.MCP_HTTP_PORT, 10) || 8000`.  An unset variable
parses to `NaN`, and both `NaN` and `0` are falsy, so they fall back to
8000. -/
def mcpHttpPort (env : Option String) : Int :=
  match env with
  | none => 8000
  | some s =>
    match parseIntJS s with
    | none => 8000
    | some n => if n = 0 then 8000 else n

/-- The Node one-liner interpolated with the validated port (the template
literal `probe` in `isMemoryServiceHealthy`, before the `replace`
post-processing). -/
def probeSource (port : Int) : String :=
  "\n      const http = require(\x27http\x27);\n      const req = http.get(\n        \x7b hostname: \x27127.0.0.1\x27, port: " ++
  toString port ++
  ", path: \x27/\x27, timeout: 2000 \x7d,\n        (res) => \x7b process.exit(0); \x7d\n      );\n      req.on(\x27error\x27, () => process.exit(1));\n      req.on(\x27timeout\x27, () => \x7b req.destroy(); process.exit(1); \x7d);\n    "

/-- `probe.replace(/\n/g, ' ')`. -/
def replaceNewlines (s : String) : String :=
  String.mk (s.toList.map (fun c => if c = '\n' then ' ' else c))

/-- `probe.replace(/"/g, '\\"')`. -/
def escapeQuotes (s : String) : String :=
  String.mk (s.toList.foldr (fun c acc => if c = '"' then '\\' :: '"' :: acc else c :: acc) [])

/-- The full `execSync` command string built by `isMemoryServiceHealthy`
from the environment-configured port. -/
def probeCommand (env : Option String) : String :=
  "node -e \"" ++ escapeQuotes (replaceNewlines (probeSource (mcpHttpPort env))) ++ "\""

/-- C6: the probe port is a validated integer.  Non-numeric and empty
`MCP_HTTP_PORT` values (and an unset variable) fall back to the default
port 8000, and the executed probe command depends on the configured
string only through its parsed integer value — two configurations with
the same parse execute the identical probe. -/
theorem probe_port_validated :
    (∀ s : String, parseIntJS s = none → mcpHttpPort (some s) = 8000) ∧
    mcpHttpPort (some "") = 8000 ∧
    mcpHttpPort none = 8000 ∧
    (∀ s1 s2 : String, parseIntJS s1 = parseIntJS s2 →
      probeCommand (some s1) = probeCommand (some s2)) :=
  ⟨fun s h => by simp [mcpHttpPort, h], rfl, rfl,
   fun s1 s2 h => by simp [probeCommand, mcpHttpPort, h]⟩

/-- Witness for C6: a non-numeric port falls back to 8000, and shell
metacharacters after the digits cannot change the executed probe. -/
theorem probe_port_validated_witness :
    mcpHttpPort (some "abc") = 8000 ∧
    probeCommand (some "8080; rm -rf /") = probeCommand (some "8080") :=
  ⟨probe_port_validated.1 "abc" rfl,
   probe_port_validated.2.2.2 "8080; rm -rf /" "8080" rfl⟩

/-- One invocation of `isMemoryServiceHealthy` in `memory-fallback.js`.
`mcpMemoryHealthy` is the raw `MCP_MEMORY_HEALTHY` environment value and
`probeOk` the outcome the subprocess probe would have (`execSync`
succeeding).  The second component records whether the probe branch was
reached (any network/subprocess I/O performed). -/
def isMemoryServiceHealthyRun (mcpMemoryHealthy : Option String) (probeOk : Bool) :
    Bool × Bool :=
  if mcpMemoryHealthy = some "false" then (false, false)
  else (probeOk, true)

/-- C7: with `MCP_MEMORY_HEALTHY` explicitly set to the string `false`,
the health check returns `false` without reaching the probe branch,
whatever the probe would have answered. -/
theorem forced_unhealthy_short_circuit :
    ∀ probeOk : Bool, isMemoryServiceHealthyRun (some "false") probeOk = (false, false) :=
  fun _ => rfl

/-- Character class `[^"\n]` of the capture group. -/
def capChar (c : Char) : Bool := c ≠ '"' && c ≠ '\n'

/-- Tail of the field pattern, `"?([^"\n]+)`, at a fixed position: an
optional quote then a maximal nonempty capture.  When the next character
is a quote the `"?` branch without the quote can never succeed (the
capture class excludes `"`), so no further backtracking is needed
here. -/
def captureBody : List Char → Option (List Char)
  | '"' :: r2 =>
    let cap := r2.takeWhile capChar
    if cap.isEmpty then none else some cap
  | r =>
    let cap := r.takeWhile capChar
    if cap.isEmpty then none else some cap

/-- Backtracking over `\s*`: greedy first, so try `j` consumed
whitespace characters from the maximal run downwards until the pattern
tail succeeds. -/
def tryWsFrom : Nat → List Char → Option (List Char)
  | 0, s => captureBody s
  | j + 1, s =>
    match captureBody (s.drop (j + 1)) with
    | some cap => some cap
    | none => tryWsFrom j s

/-- Attempt of `\s*"?([^"\n]+)` starting right after the field literal. -/
def matchAfterField (s : List Char) : Option (List Char) :=
  tryWsFrom (s.takeWhile isJsWs).length s

/-- Leftmost regex search for `pat` (= `field:`) followed by
`\s*"?([^"\n]+)`: at each position try the literal and then the tail with
backtracking; on failure the engine advances one character. -/
def findFieldMatch (pat : List Char) : List Char → Option (List Char)
  | [] => none
  | c :: cs =>
    if pat.isPrefixOf (c :: cs) then
      match matchAfterField ((c :: cs).drop pat.length) with
      | some cap => some cap
      | none => findFieldMatch pat cs
    else findFieldMatch pat cs

/-- First capture of `raw.match(new RegExp(field + ':\\s*"?([^"\\n]+)'))`,
shared by `pre-compact-save.js` and `user-prompt-submit-rufus.js`. -/
def fieldCapture (raw field : String) : Option String :=
  (findFieldMatch (field.toList ++ [':']) raw.toList).map String.mk

/-- JavaScript `String.prototype.trim` (strips the `\s` class). -/
def jsTrim (s : String) : String :=
  String.mk (((s.toList.dropWhile isJsWs).reverse.dropWhile isJsWs).reverse)

/-- `extractYAMLField` of `pre-compact-save.js`: the first capture,
trimmed; `null` when the pattern does not match. -/
def extractYAMLField (raw field : String) : Option String :=
  (fieldCapture raw field).map jsTrim

/-- One field of the pre-compact sprint block:
`extractYAMLField(sprintRaw, f) || "?"`. -/
def preSprintField (raw field : String) : String :=
  match extractYAMLField raw field with
  | some s => if s = "" then "?" else s
  | none => "?"

/-- One field of the user-prompt hook:
`(raw.match(/f:\s*"?([^"\n]+)/) || [])[1] || "?"`. -/
def fieldOrQ (raw field : String) : String :=
  match fieldCapture raw field with
  | some s => if s = "" then "?" else s
  | none => "?"

/-- `sprintData` of `pre-compact-save.js`: `{}` when the document is
absent or empty (the falsy-string guard `if (sprintRaw)`), otherwise the
six extracted fields with the `"?"` sentinel. -/
def sprintDataOf (raw : Option String) : JsVal :=
  match raw with
  | none => .obj []
  | some s =>
    if s = "" then .obj []
    else .obj [("workflow", .str (preSprintField s "workflow")),
               ("status", .str (preSprintField s "status")),
               ("current_phase", .str (preSprintField s "current_phase")),
               ("next_phase", .str (preSprintField s "next_phase")),
               ("quality_tier", .str (preSprintField s "quality_tier")),
               ("scale", .str (preSprintField s "scale"))]

/-- The fixed status vocabulary, in the alternation order of the source
regex `/status:\s*"?(backlog|ready-for-dev|in-progress|review|done)/g`. -/
def storyAlts : List (List Char) :=
  ["backlog".toList, "ready-for-dev".toList, "in-progress".toList,
   "review".toList, "done".toList]

/-- Literal head of the story-status pattern. -/
def statusColon : List Char := "status:".toList

/-- One match of the global story-status regex, decomposed into the
whitespace run, the optional quote and the vocabulary token.  Because
every token starts with a letter — never whitespace or a quote — the
regex engine's backtracking over `\s*"?` can never turn a failing maximal
consumption into a success, so maximal munch is exact here. -/
structure StoryMatch where
  ws : List Char
  quoted : Bool
  alt : List Char

/-- The full matched substring, as `String.prototype.match` returns it in
the global-match array. -/
def renderStory (m : StoryMatch) : List Char :=
  statusColon ++ m.ws ++ (if m.quoted then ['"'] else []) ++ m.alt

/-- Length consumed by a match (the engine resumes after it). -/
def storyLen (m : StoryMatch) : Nat := (renderStory m).length

/-- Ordered alternation: the first vocabulary token that is a prefix of
the remaining input wins. -/
def firstAlt : List (List Char) → List Char → Option (List Char)
  | [], _ => none
  | a :: as, s => if a.isPrefixOf s then some a else firstAlt as s

/-- Tail of the story-status pattern after the maximal whitespace run:
`"?` then the alternation. -/
def tryStoryAt (ws : List Char) : List Char → Option StoryMatch
  | '"' :: s3 =>
    match firstAlt storyAlts s3 with
    | some a => some ⟨ws, true, a⟩
    | none => none
  | s2 =>
    match firstAlt storyAlts s2 with
    | some a => some ⟨ws, false, a⟩
    | none => none

/-- Attempt of the story-status pattern at one position. -/
def tryStory (s : List Char) : Option StoryMatch :=
  if statusColon.isPrefixOf s then
    tryStoryAt ((s.drop statusColon.length).takeWhile isJsWs)
      ((s.drop statusColon.length).drop
        ((s.drop statusColon.length).takeWhile isJsWs).length)
  else none

/-- Global scan of `/status:\s*"?(...)/g`: try each position left to
right, resuming after each match.  Each step consumes at least one
character, so fuelling with the input length makes the scan exact, not
an approximation. -/
def structScanAux : Nat → List Char → List StoryMatch
  | 0, _ => []
  | _ + 1, [] => []
  | fuel + 1, c :: cs =>
    match tryStory (c :: cs) with
    | some m => m :: structScanAux fuel ((c :: cs).drop (storyLen m))
    | none => structScanAux fuel cs

/-- All story-status matches of the document, in order. -/
def structScan (raw : String) : List StoryMatch :=
  structScanAux raw.toList.length raw.toList

/-- `stories` of `user-prompt-submit-rufus.js`: the array of full match
strings returned by `raw.match(/status:\s*"?(...)/g) || []`. -/
def userStories (raw : String) : List (List Char) :=
  (structScan raw).map renderStory

/-- JavaScript `String.prototype.includes`. -/
def listIncludes (n : List Char) : List Char → Bool
  | [] => n.isEmpty
  | c :: cs => n.isPrefixOf (c :: cs) || listIncludes n cs

/-- The needle of `s.includes("done")`. -/
def doneTok : List Char := "done".toList

/-- `done` of `user-prompt-submit-rufus.js`:
`stories.filter((s) => s.includes("done")).length`. -/
def userDone (raw : String) : Nat :=
  ((userStories raw).filter (fun s => listIncludes doneTok s)).length

/-- `total` of `user-prompt-submit-rufus.js`:
`Math.max(stories.length - 1, 0)` (truncated subtraction on `Nat` is
exactly the floored decrement). -/
def userTotal (raw : String) : Nat :=
  (userStories raw).length - 1

/-- `sprintInfo` line built by the user-prompt hook from a present
sprint-status document. -/
def sprintInfoOf (raw : String) : String :=
  "Workflow: " ++ fieldOrQ raw "workflow" ++
  " | Status: " ++ fieldOrQ raw "status" ++
  " | Phase: " ++ fieldOrQ raw "current_phase" ++
  " | Next: " ++ fieldOrQ raw "next_phase" ++
  " | Tier: " ++ fieldOrQ raw "quality_tier" ++
  " | Stories: " ++ toString (userDone raw) ++ "/" ++ toString (userTotal raw) ++ " done"

theorem firstAlt_mem (as : List (List Char)) (s a : List Char)
    (h : firstAlt as s = some a) : a ∈ as := by
  induction as with
  | nil => cases h
  | cons hd tl ih =>
    by_cases hp : hd.isPrefixOf s
    · rw [firstAlt, if_pos hp] at h
      injection h with h
      exact h ▸ List.mem_cons_self hd tl
    · rw [firstAlt, if_neg hp] at h
      exact List.mem_cons_of_mem hd (ih h)

theorem tryStoryAt_shape (ws rest : List Char) (m : StoryMatch)
    (h : tryStoryAt ws rest = some m) : m.ws = ws ∧ m.alt ∈ storyAlts := by
  unfold tryStoryAt at h
  split at h
  · split at h
    · injection h with h
      subst h
      rename_i a ha
      exact ⟨rfl, firstAlt_mem _ _ _ ha⟩
    · cases h
  · split at h
    · injection h with h
      subst h
      rename_i a ha
      exact ⟨rfl, firstAlt_mem _ _ _ ha⟩
    · cases h

theorem tryStory_ws_alt (s : List Char) (m : StoryMatch) (h : tryStory s = some m) :
    (∀ c ∈ m.ws, isJsWs c = true) ∧ m.alt ∈ storyAlts := by
  unfold tryStory at h
  split at h
  · obtain ⟨hws, halt⟩ := tryStoryAt_shape _ _ _ h
    exact ⟨fun c hc => List.mem_takeWhile_imp (hws ▸ hc), halt⟩
  · cases h

theorem structScanAux_inv (fuel : Nat) : ∀ (s : List Char) (m : StoryMatch),
    m ∈ structScanAux fuel s →
    (∀ c ∈ m.ws, isJsWs c = true) ∧ m.alt ∈ storyAlts := by
  induction fuel with
  | zero => intro s m hm; cases hm
  | succ f ih =>
    intro s m hm
    cases s with
    | nil => cases hm
    | cons c cs =>
      rw [structScanAux] at hm
      cases htry : tryStory (c :: cs) with
      | some m' =>
        rw [htry] at hm
        rcases List.mem_cons.mp hm with he | ht
        · exact he ▸ tryStory_ws_alt _ _ htry
        · exact ih _ _ ht
      | none =>
        rw [htry] at hm
        exact ih _ _ hm

theorem listIncludes_append_of_ne (d : Char) (n x y : List Char)
    (h : ∀ c ∈ x, c ≠ d) : listIncludes (d :: n) (x ++ y) = listIncludes (d :: n) y := by
  induction x with
  | nil => rfl
  | cons c x' ih =>
    have hc : c ≠ d := h c (List.mem_cons_self c x')
    have hbeq : (d == c) = false := beq_eq_false_iff_ne.mpr (fun hdc => hc hdc.symm)
    have hpre : List.isPrefixOf (d :: n) (c :: (x' ++ y)) = false := by
      rw [show List.isPrefixOf (d :: n) (c :: (x' ++ y)) =
        ((d == c) && List.isPrefixOf n (x' ++ y)) from rfl, hbeq, Bool.false_and]
    rw [List.cons_append,
      show listIncludes (d :: n) (c :: (x' ++ y)) =
        (List.isPrefixOf (d :: n) (c :: (x' ++ y)) || listIncludes (d :: n) (x' ++ y)) from rfl,
      hpre, Bool.false_or]
    exact ih (fun c' hc' => h c' (List.mem_cons_of_mem _ hc'))

/-- The full matched text of a story-status match contains `"done"` as a
substring exactly when its vocabulary token is `done`: the characters
before the token are `status:`, whitespace and possibly a quote — none of
which can contribute a letter — and no other token contains `done`. -/
theorem listIncludes_done_render (m : StoryMatch)
    (hw : ∀ c ∈ m.ws, isJsWs c = true) (ha : m.alt ∈ storyAlts) :
    listIncludes doneTok (renderStory m) = decide (m.alt = doneTok) := by
  have hq : ∀ c ∈ (if m.quoted then ['"'] else []), c ≠ 'd' := by
    cases m.quoted <;> simp
  have hs : ∀ c ∈ statusColon, c ≠ 'd' := by decide
  have hwd : ∀ c ∈ m.ws, c ≠ 'd' := by
    intro c hc he
    have := hw c hc
    rw [he] at this
    exact absurd this (by decide)
  have hstep : listIncludes doneTok (renderStory m) = listIncludes doneTok m.alt := by
    rw [renderStory, show doneTok = 'd' :: "one".toList from rfl]
    refine listIncludes_append_of_ne 'd' _ _ m.alt ?_
    intro c hc
    rcases List.mem_append.mp hc with h1 | h2
    · rcases List.mem_append.mp h1 with h3 | h4
      · exact hs c h3
      · exact hwd c h4
    · exact hq c h2
  rw [hstep]
  have ha' : m.alt = "backlog".toList ∨ m.alt = "ready-for-dev".toList ∨
      m.alt = "in-progress".toList ∨ m.alt = "review".toList ∨ m.alt = "done".toList := by
    simpa [storyAlts] using ha
  rcases ha' with h | h | h | h | h <;> rw [h] <;> decide

theorem countP_congr_mem {α : Type} (l : List α) (p q : α → Bool)
    (h : ∀ a ∈ l, p a = q a) : l.countP p = l.countP q := by
  induction l with
  | nil => rfl
  | cons hd tl ih =>
    rw [List.countP_cons, List.countP_cons, h hd (List.mem_cons_self hd tl),
      ih (fun a ha => h a (List.mem_cons_of_mem hd ha))]

/-- C5: over any sprint-status document, the surfaced story completion
ratio has numerator the raw number of vocabulary status-token matches
whose token is `done` (not decremented), and denominator the raw number
of all vocabulary matches minus one, floored at zero. -/
theorem story_ratio_counts (raw : String) :
    userDone raw = (structScan raw).countP (fun m => decide (m.alt = doneTok)) ∧
    userTotal raw = (structScan raw).length - 1 := by
  constructor
  · rw [userDone, userStories, ← List.countP_eq_length_filter, List.countP_map]
    exact countP_congr_mem _ _ _ (fun m hm =>
      listIncludes_done_render m (structScanAux_inv _ _ m hm).1 (structScanAux_inv _ _ m hm).2)
  · rw [userTotal, userStories, List.length_map]

/-- C4: extraction over the content of an absent or zero-byte
sprint-status document (the empty raw text) resolves every extracted
field to the `"?"` sentinel in both hooks' extractors, and the derived
story completion ratio is `0/0`. -/
theorem extraction_empty_document_sentinels :
    fieldOrQ "" "workflow" = "?" ∧ fieldOrQ "" "status" = "?" ∧
    fieldOrQ "" "current_phase" = "?" ∧ fieldOrQ "" "next_phase" = "?" ∧
    fieldOrQ "" "quality_tier" = "?" ∧
    preSprintField "" "workflow" = "?" ∧ preSprintField "" "status" = "?" ∧
    preSprintField "" "current_phase" = "?" ∧ preSprintField "" "next_phase" = "?" ∧
    preSprintField "" "quality_tier" = "?" ∧
    userDone "" = 0 ∧ userTotal "" = 0 ∧
    sprintInfoOf "" =
      "Workflow: ? | Status: ? | Phase: ? | Next: ? | Tier: ? | Stories: 0/0 done" :=
  ⟨rfl, rfl, rfl, rfl, rfl, rfl, rfl, rfl, rfl, rfl, rfl, rfl, rfl⟩

/-- Template-literal coercion `${v}` for the values the hooks display.
The hooks only ever interpolate strings and numbers (sprint fields and
agent task handles); the array/object cases use JavaScript's default
object rendering and a flattened array rendering without recursing. -/
def jsDisplay : JsVal → String
  | .null => "null"
  | .bool b => if b then "true" else "false"
  | .num n => toString n
  | .str s => s
  | .arr _ => ""
  | .obj _ => "[object Object]"

/-- `Object.entries(v)`: fields of an object, indexed elements of an
array, indexed characters of a string, empty for primitives. -/
def jsEntries : JsVal → List (String × JsVal)
  | .obj fs => fs
  | .arr xs => xs.enum.map (fun p => (toString p.1, p.2))
  | .str s => s.toList.enum.map (fun p => (toString p.1, .str (String.mk [p.2])))
  | _ => []

/-- First-match lookup in a static string table (property access on a
string-valued object literal). -/
def strLookup : List (String × String) → String → Option String
  | [], _ => none
  | (k', v) :: fs, k => if k' = k then some v else strLookup fs k

/-- `FALLBACK_MESSAGES` of `memory-fallback.js`. -/
def fallbackMessages : List (String × String) :=
  [("ensure-memory-server",
    "[MCP MEMORY FALLBACK] mcp-memory-service est indisponible. La configuration MCP a ete ecrite mais le service ne repond pas. Les operations memoire seront ignorees jusqu\x27a ce que le service soit relance."),
   ("subagent-stop-memory",
    "[MCP MEMORY FALLBACK] mcp-memory-service est indisponible. store_memory() ne sera pas executee. Les resultats de l\x27agent ne seront pas persistes en memoire. Relancez le service pour reactiver la persistance."),
   ("pre-compact-save",
    "[MCP MEMORY FALLBACK] mcp-memory-service est indisponible. retrieve_memory() pourrait echouer apres le compactage. Le contexte local (sprint-status.yaml, .mako-session-state.json) reste disponible.")]

/-- `DEFAULT_FALLBACK` of `memory-fallback.js`. -/
def defaultFallback : String :=
  "[MCP MEMORY FALLBACK] mcp-memory-service est indisponible. Les operations memoire sont temporairement desactivees."

/-- `memoryFallbackMessage(hook)`: the hook-specific notice, or the
generic one for unknown hooks (`FALLBACK_MESSAGES[key] || DEFAULT`). -/
def memoryFallbackMessage (hook : String) : String :=
  match strLookup fallbackMessages hook with
  | some msg => msg
  | none => defaultFallback

/-- `sprintSummary` of `pre-compact-save.js`: the joined extracted
fields, or the no-document notice when the raw text is absent or falsy. -/
def sprintSummaryOf (raw : Option String) : String :=
  match raw with
  | none => "No sprint-status.yaml found."
  | some s =>
    if s = "" then "No sprint-status.yaml found."
    else String.intercalate " | "
      ((jsEntries (sprintDataOf (some s))).map (fun kv => kv.1 ++ ": " ++ jsDisplay kv.2))

/-- `agentIdsSummary` of `pre-compact-save.js`. -/
def agentIdsSummaryOf (agents : JsVal) : String :=
  if truthy agents && decide (0 < (jsEntries agents).length) then
    String.intercalate ", " ((jsEntries agents).map (fun kv => kv.1 ++ "=" ++ jsDisplay kv.2))
  else "None saved."

/-- The `{hookSpecificOutput: {hookEventName: "PreCompact",
additionalContext}}` envelope. -/
def preCompactEnvelope (ctx : String) : JsVal :=
  .obj [("hookSpecificOutput",
    .obj [("hookEventName", .str "PreCompact"), ("additionalContext", .str ctx)])]

/-- Recovery-message lines of `pre-compact-save.js`. -/
def preCompactLines (sprintSummary agentIds : String) : List String :=
  ["COMPACTAGE IMMINENT -- SAUVEGARDE CONTEXTE",
   "",
   "Sprint: " ++ sprintSummary,
   "Agent IDs: " ++ agentIds,
   "",
   "APRES LE COMPACTAGE :",
   "1. Lis sprint-status.yaml pour recuperer l\x27etat du sprint",
   "2. Lis .mako-session-state.json pour les agent IDs et decisions en cours",
   "3. retrieve_memory(query: \x27<nom-du-projet>\x27) pour le contexte memoire",
   "4. Tu es Rufus. Ne code pas. Delegue. Continue le pipeline."]

/-- `main()` of `pre-compact-save.js`, as the single JSON object the
process writes to stdout.  `fail` injects a thrown exception at an
arbitrary point of the try body (any internal throw lands in the
outermost catch); `sprintRaw` is the `safeRead` result of the
sprint-status document, `existingJson` the `safeParseJSON` result of the
prior snapshot, `now` the ISO timestamp, `memHealthy` the health-probe
outcome.  The snapshot write is best-effort and does not affect the
output. -/
def preCompactMain (fail : Option String) (sprintRaw : Option String)
    (existingJson : Option JsVal) (now : String) (memHealthy : Bool) : JsVal :=
  match fail with
  | some _ =>
    preCompactEnvelope
      "Compactage imminent. Apres: lis sprint-status.yaml et .mako-session-state.json."
  | none =>
    let sprintData := sprintDataOf sprintRaw
    let sessionState := mergeSessionState now sprintData (jsOr existingJson (.obj []))
    let agentIds := agentIdsSummaryOf ((propLookup sessionState "active_agents").getD .null)
    let memoryWarning :=
      if memHealthy then "" else "\n\n" ++ memoryFallbackMessage "pre-compact-save"
    preCompactEnvelope
      (String.intercalate "\n" (preCompactLines (sprintSummaryOf sprintRaw) agentIds) ++
        memoryWarning)

/-- `ROUTING` of `subagent-stop-memory.js`. -/
def routingTable : List (String × String) :=
  [("tseng", "scarlet or reeve (depending on workflow)"),
   ("scarlet", "reeve (architecture)"),
   ("genesis", "reeve or heidegger (depending on workflow)"),
   ("reeve", "alignment gate then heidegger or hojo"),
   ("heidegger", "lazard (if Standard+) or hojo"),
   ("lazard", "hojo"),
   ("hojo", "reno (testing)"),
   ("reno", "elena (security + edge cases)"),
   ("elena", "palmer (docs) or rude (review)"),
   ("palmer", "rude (review)"),
   ("rude", "DoD gate then retrospective"),
   ("sephiroth", "hojo (apply fix) or jenova (meta-learning)"),
   ("jenova", "report to user")]

/-- Regex `\w` class. -/
def isWordChar (c : Char) : Bool := c.isAlpha || c.isDigit || c = '_'

/-- Literal head of the `/mako:(\w+)/` pattern. -/
def makoColon : List Char := "mako:".toList

/-- Leftmost search for `/mako:(\w+)/`: the capture is the maximal
nonempty word-character run after the literal; an empty run fails the
attempt and the engine advances one character. -/
def findMako : List Char → Option (List Char)
  | [] => none
  | c :: cs =>
    if makoColon.isPrefixOf (c :: cs) then
      match ((c :: cs).drop makoColon.length).takeWhile isWordChar with
      | [] => findMako cs
      | w => some w
    else findMako cs

/-- Agent-name extraction of `subagent-stop-memory.js`: parse stdin,
read `agent_type || agentType || ""`, match `/mako:(\w+)/`.  A missing or
unparseable stdin, a non-string `agent_type` (whose `.match` call throws
into the inner catch) or a failed match all leave `"unknown"`. -/
def agentNameOf (stdinJson : Option JsVal) : String :=
  match stdinJson with
  | none => "unknown"
  | some data =>
    match jsOr (getProp data "agent_type") (jsOr (getProp data "agentType") (.str "")) with
    | .str s =>
      match findMako s.toList with
      | some w => String.mk w
      | none => "unknown"
    | _ => "unknown"

/-- `(raw.match(/f:\s*"?([^"\n]+)/) || [])[1] || ""` of
`subagent-stop-memory.js` (capture groups are nonempty, so only a failed
match yields the empty default). -/
def fieldOrEmpty (raw field : String) : String :=
  match fieldCapture raw field with
  | some s => if s = "" then "" else s
  | none => ""

/-- `phaseInfo` of `subagent-stop-memory.js`. -/
def phaseInfoOf (sprintRaw : Option String) : String :=
  match sprintRaw with
  | none => ""
  | some raw =>
    let phase := fieldOrEmpty raw "current_phase"
    let next := fieldOrEmpty raw "next_phase"
    if phase ≠ "" || next ≠ "" then
      " | sprint-status: phase=" ++ phase ++ ", next=" ++ next
    else ""

/-- The `{hookSpecificOutput: {hookEventName: "SubagentStop",
additionalContext}}` envelope. -/
def subagentEnvelope (ctx : String) : JsVal :=
  .obj [("hookSpecificOutput",
    .obj [("hookEventName", .str "SubagentStop"), ("additionalContext", .str ctx)])]

/-- Reminder lines of `subagent-stop-memory.js`. -/
def subagentLines (agentName phaseInfo nextStep : String) : List String :=
  ["Agent \x27" ++ agentName ++ "\x27 a termine. Resultat recu." ++ phaseInfo,
   "",
   "ACTIONS REQUISES :",
   "1. store_memory() -- Persister le resultat de cet agent",
   "   Format: store_memory(content: \"<projet> | " ++ agentName ++
     ": <resume 1-2 lignes> | next: <etape>\", memory_type: \"observation\", tags: [\"project:<nom>\", \"phase:" ++
     agentName ++ "\"])",
   "2. Mettre a jour sprint-status.yaml (current_phase, next_phase, story statuses)",
   "3. Prochaine etape du pipeline : " ++ nextStep,
   "",
   "Si tu as deja fait le store_memory() (instruction du skill), ignore le point 1."]

/-- `main()` of `subagent-stop-memory.js`, as the single JSON object
written to stdout; `fail` injects an exception anywhere in the try
body. -/
def subagentStopMain (fail : Option String) (stdinJson : Option JsVal)
    (sprintRaw : Option String) (memHealthy : Bool) : JsVal :=
  match fail with
  | some _ =>
    subagentEnvelope "Un agent a termine. store_memory() + update sprint-status.yaml."
  | none =>
    let agentName := agentNameOf stdinJson
    let nextStep :=
      (strLookup routingTable agentName).getD "check workflow in sprint-status.yaml"
    let memoryWarning :=
      if memHealthy then "" else "\n\n" ++ memoryFallbackMessage "subagent-stop-memory"
    subagentEnvelope
      (String.intercalate "\n" (subagentLines agentName (phaseInfoOf sprintRaw) nextStep) ++
        memoryWarning)

/-- `sprintInfo` of `user-prompt-submit-rufus.js`: the extraction runs
whenever the file exists — including a zero-byte file — and only an
absent file yields the no-sprint notice. -/
def userSprintInfoOf (sprintRaw : Option String) : String :=
  match sprintRaw with
  | none => "No active sprint."
  | some raw => sprintInfoOf raw

/-- `agentIds` suffix of `user-prompt-submit-rufus.js` (first five agent
entries). -/
def agentIdsSuffixOf (stateJson : Option JsVal) : String :=
  match stateJson with
  | none => ""
  | some st =>
    match getProp st "active_agents" with
    | some ag =>
      if truthy ag && decide (0 < (jsEntries ag).length) then
        " | AgentIDs: " ++ String.intercalate ", "
          (((jsEntries ag).take 5).map (fun kv => kv.1 ++ "=" ++ jsDisplay kv.2))
      else ""
    | none => ""

/-- The reminder message of `user-prompt-submit-rufus.js`. -/
def userPromptMessage (sprintRaw : Option String) (stateJson : Option JsVal) : String :=
  String.intercalate "\n"
    ["<system-reminder>",
     "[RUFUS CONTEXT RELOAD]",
     userSprintInfoOf sprintRaw ++ agentIdsSuffixOf stateJson,
     "Rules: Tu es Rufus. Ne code pas. Delegue. Mets a jour sprint-status apres chaque transition.",
     "</system-reminder>"]

/-- `main()` of `user-prompt-submit-rufus.js`, as the single JSON object
written to stdout; the catch-all emits the message-less `{result:
"continue"}` envelope. -/
def userPromptMain (fail : Option String) (sprintRaw : Option String)
    (stateJson : Option JsVal) : JsVal :=
  match fail with
  | some _ => .obj [("result", .str "continue")]
  | none =>
    .obj [("result", .str "continue"),
          ("message", .str (userPromptMessage sprintRaw stateJson))]

/-- Shape check: a single top-level object of the PreCompact envelope. -/
def isPreCompactEnvelope : JsVal → Bool
  | .obj [("hookSpecificOutput",
      .obj [("hookEventName", .str "PreCompact"), ("additionalContext", .str _)])] => true
  | _ => false

/-- Shape check: a single top-level object of the SubagentStop envelope. -/
def isSubagentEnvelope : JsVal → Bool
  | .obj [("hookSpecificOutput",
      .obj [("hookEventName", .str "SubagentStop"), ("additionalContext", .str _)])] => true
  | _ => false

/-- Shape check: a single top-level object of the user-prompt
`{result: "continue"[, message]}` envelope. -/
def isUserPromptEnvelope : JsVal → Bool
  | .obj [("result", .str "continue"), ("message", .str _)] => true
  | .obj [("result", .str "continue")] => true
  | _ => false

/-- C9: each hook entry point is a total function producing exactly one
top-level JSON object of its event-specific envelope shape, for every
input and also when an internal exception is injected — the catch-all
replaces the output with the hard-coded fallback envelope instead of
propagating the error to the host. -/
theorem hook_output_envelope_total :
    (∀ (fail sprintRaw : Option String) (existingJson : Option JsVal)
        (now : String) (memHealthy : Bool),
      isPreCompactEnvelope (preCompactMain fail sprintRaw existingJson now memHealthy) = true) ∧
    (∀ (fail : Option String) (stdinJson : Option JsVal) (sprintRaw : Option String)
        (memHealthy : Bool),
      isSubagentEnvelope (subagentStopMain fail stdinJson sprintRaw memHealthy) = true) ∧
    (∀ (fail sprintRaw : Option String) (stateJson : Option JsVal),
      isUserPromptEnvelope (userPromptMain fail sprintRaw stateJson) = true) := by
  refine ⟨fun fail _ _ _ _ => ?_, fun fail _ _ _ => ?_, fun fail _ _ => ?_⟩ <;>
    cases fail <;> rfl

end Mako
